import Mathlib

/-!
Verification of the PyNDN2 Interest mutation-tracking core (pyndn/interest.py)
and the AES padding rule (pyndn/encrypt/algo/aes_algorithm.py).

The Interest class composes change-tracked wrappers around mutable sub-objects
(Name, KeyLocator, Exclude) with scalar selector fields, an aggregate change
counter, a nonce-invalidation policy and a canonical URI serialization.
Python's mutable objects are embedded as explicit state passing: every method
that mutates `self` becomes a function `Interest → ... → Interest`, and every
getter with side effects returns a pair of the result and the updated state.
-/

namespace PyNDN

/-- Modelled from the spec: the hierarchical Name sub-object (pyndn/name.py is
not part of the analyzed slice).  Per the sub-object contract it exposes an
internal mutation counter that increases on every structural mutation and a
canonical textual form (consumed by `toUri`).  Internals are out of scope, so
the model carries the canonical URI text directly. -/
structure Name where
  uri : String
  changeCount : Nat
deriving Repr, DecidableEq

/-- Modelled from the spec: the canonical textual form of a Name; carried
directly as a field since the name's internal structure is out of scope. -/
def Name.toUri (n : Name) : String := n.uri

/-- Modelled from the spec: a default-constructed empty Name (`Name(None)`),
whose canonical URI form is the bare "/". -/
def Name.empty : Name := { uri := "/", changeCount := 0 }

/-- Modelled from the spec: the KeyLocator sub-object (pyndn/key_locator.py is
not part of the analyzed slice).  `getType() == None` means unspecified; it
exposes a mutation counter per the sub-object contract. -/
structure KeyLocator where
  keyType : Option Nat
  changeCount : Nat
deriving Repr, DecidableEq

/-- Modelled from the spec: a default-constructed KeyLocator (`KeyLocator()`),
with no type specified. -/
def KeyLocator.empty : KeyLocator := { keyType := none, changeCount := 0 }

/-- Modelled from the spec: the Exclude sub-object (pyndn/exclude.py is not
part of the analyzed slice).  It exposes `size()` (zero means unspecified), a
canonical textual form, and a mutation counter per the sub-object contract. -/
structure Exclude where
  size : Nat
  uri : String
  changeCount : Nat
deriving Repr, DecidableEq

/-- Modelled from the spec: the canonical textual form of an Exclude. -/
def Exclude.toUri (e : Exclude) : String := e.uri

/-- Modelled from the spec: a default-constructed Exclude (`Exclude()`), with
size 0 (not specified). -/
def Exclude.empty : Exclude := { size := 0, uri := "", changeCount := 0 }

/-- Modelled from the spec: the sub-object contract "exposes an internal
mutation counter"; each tracked sub-object type provides `getChangeCount`. -/
class HasChangeCount (T : Type) where
  getChangeCount : T → Nat

instance : HasChangeCount Name := ⟨Name.changeCount⟩
instance : HasChangeCount KeyLocator := ⟨KeyLocator.changeCount⟩
instance : HasChangeCount Exclude := ⟨Exclude.changeCount⟩

/-- Modelled from the spec: the generic change-tracked wrapper
(pyndn/util/change_counter.py is not part of the analyzed slice).  It owns one
instance of `T` and a locally cached integer snapshot of `T`'s own mutation
counter (spec section 3). -/
structure ChangeCounter (T : Type) where
  target : T
  changeCount : Nat
deriving Repr, DecidableEq

variable {T : Type}

/-- Modelled from the spec: wrapper construction; the snapshot is initialised
to the owned value's current counter so that the section-3 invariant (snapshot
equals the value's counter immediately after the last observation) holds at
creation. -/
def ChangeCounter.new [HasChangeCount T] (target : T) : ChangeCounter T :=
  { target := target, changeCount := HasChangeCount.getChangeCount target }

/-- Modelled from the spec: `get()` returns a reference to the owned value and
does not affect tracking state. -/
def ChangeCounter.get (counter : ChangeCounter T) : T := counter.target

/-- Modelled from the spec: `set(value)` replaces the owned value and does not
itself update the snapshot (spec section 4.1). -/
def ChangeCounter.set (counter : ChangeCounter T) (target : T) : ChangeCounter T :=
  { counter with target := target }

/-- Modelled from the spec: `checkChanged()` compares the owned value's current
mutation counter to the cached snapshot, returns true if they differ, and
always updates the snapshot to the current counter (a consuming poll). -/
def ChangeCounter.checkChanged [HasChangeCount T] (counter : ChangeCounter T) :
    Bool × ChangeCounter T :=
  let targetChangeCount := HasChangeCount.getChangeCount counter.target
  if counter.changeCount ≠ targetChangeCount then
    (true, { counter with changeCount := targetChangeCount })
  else
    (false, counter)

/-- Snapshot-refresh on a wrapper: the state produced by `checkChanged`. -/
def ChangeCounter.refresh [HasChangeCount T] (counter : ChangeCounter T) : ChangeCounter T :=
  { counter with changeCount := HasChangeCount.getChangeCount counter.target }

/-- Modelled from the spec: `Name.toEscapedString` (pyndn/name.py is not part
of the analyzed slice): "a percent-escaping routine operating over raw bytes".
Unreserved bytes (ASCII digits, letters, and `+ - . _`) are kept literally;
every other byte becomes `%XX` with uppercase hex digits. -/
def isUnreservedByte (b : Nat) : Bool :=
  (48 ≤ b && b ≤ 57) || (65 ≤ b && b ≤ 90) || (97 ≤ b && b ≤ 122) ||
    b == 43 || b == 45 || b == 46 || b == 95

/-- Uppercase hexadecimal digit for a value below 16. -/
def hexDigitChar (n : Nat) : Char :=
  if n < 10 then Char.ofNat (48 + n) else Char.ofNat (55 + n)

/-- Modelled from the spec: percent-escaping of a raw byte sequence for use in
a URI (the nonce segment of `toUri`). -/
def Name.toEscapedString (value : List Nat) : String :=
  String.join (value.map (fun b =>
    if isUnreservedByte b then String.singleton (Char.ofNat b)
    else "%" ++ String.singleton (hexDigitChar (b / 16 % 16)) ++
      String.singleton (hexDigitChar (b % 16))))

/-- Python `repr` of the interest lifetime.  The source stores the lifetime as
`float(x)`; the embedding restricts to integral millisecond values (floating
point is not shallowly embeddable), for which `repr` prints the integer part
followed by ".0". -/
def reprFloat (v : Int) : String := toString v ++ ".0"

/-- The Interest packet state: pyndn/interest.py `Interest.__init__`
(lines 19-33).  A Blob is embedded as a list of byte values. -/
structure Interest where
  name : ChangeCounter Name
  minSuffixComponents : Option Int
  maxSuffixComponents : Option Int
  keyLocator : ChangeCounter KeyLocator
  exclude : ChangeCounter Exclude
  childSelector : Option Int
  mustBeFresh : Bool
  nonce : List Nat
  scope : Option Int
  interestLifetimeMilliseconds : Option Int
  getNonceChangeCount : Nat
  changeCount : Nat
deriving Repr, DecidableEq

namespace Interest

/-- Source `Interest.__init__(name)`: all selectors unset, mustBeFresh false, empty
nonce, both counters 0. -/
def new (name : Name) : Interest :=
  { name := ChangeCounter.new name
    minSuffixComponents := none
    maxSuffixComponents := none
    keyLocator := ChangeCounter.new KeyLocator.empty
    exclude := ChangeCounter.new Exclude.empty
    childSelector := none
    mustBeFresh := false
    nonce := []
    scope := none
    interestLifetimeMilliseconds := none
    getNonceChangeCount := 0
    changeCount := 0 }

/-- Source `Interest()` with the default argument: the name defaults to an empty
`Name(None)`. -/
def empty : Interest := new Name.empty

/-- Source `Interest.getName` (line 35-42). -/
def getName (interest : Interest) : Name := interest.name.get

/-- Source `Interest.getKeyLocator` (line 62-70). -/
def getKeyLocator (interest : Interest) : KeyLocator := interest.keyLocator.get

/-- Source `Interest.getExclude` (line 72-80). -/
def getExclude (interest : Interest) : Exclude := interest.exclude.get

/-- Source `Interest.getChangeCount` (lines 272-288): polls `checkChanged` on each of
the three wrappers (the source deliberately calls every one, writing the call
on the left of the `or`), increments `_changeCount` once if any reported a
change, and returns it. -/
def getChangeCount (interest : Interest) : Nat × Interest :=
  let nameResult := interest.name.checkChanged
  let keyLocatorResult := interest.keyLocator.checkChanged
  let excludeResult := interest.exclude.checkChanged
  let changed := nameResult.fst || keyLocatorResult.fst || excludeResult.fst
  let newChangeCount := if changed then interest.changeCount + 1 else interest.changeCount
  (newChangeCount,
   { interest with
       name := nameResult.snd
       keyLocator := keyLocatorResult.snd
       exclude := excludeResult.snd
       changeCount := newChangeCount })

/-- Source `Interest.getNonce` (lines 101-114): if `_getNonceChangeCount` differs from
the recomputed change count, clear the nonce, re-read the change count into
`_getNonceChangeCount`, and return the (possibly cleared) nonce. -/
def getNonce (interest : Interest) : List Nat × Interest :=
  let firstPoll := interest.getChangeCount
  if interest.getNonceChangeCount ≠ firstPoll.fst then
    let cleared := { firstPoll.snd with nonce := [] }
    let secondPoll := cleared.getChangeCount
    let final := { secondPoll.snd with getNonceChangeCount := secondPoll.fst }
    (final.nonce, final)
  else
    (firstPoll.snd.nonce, firstPoll.snd)

/-- Source `Interest.setName` (lines 134-136): a Name argument is stored as given
(`type(name) == Name`), and `_changeCount` is incremented. -/
def setName (interest : Interest) (name : Name) : Interest :=
  { interest with name := interest.name.set name, changeCount := interest.changeCount + 1 }

/-- Source `Interest.setMinSuffixComponents` (lines 138-140). -/
def setMinSuffixComponents (interest : Interest) (v : Option Int) : Interest :=
  { interest with minSuffixComponents := v, changeCount := interest.changeCount + 1 }

/-- Source `Interest.setMaxSuffixComponents` (lines 142-144). -/
def setMaxSuffixComponents (interest : Interest) (v : Option Int) : Interest :=
  { interest with maxSuffixComponents := v, changeCount := interest.changeCount + 1 }

/-- Source `Interest.setKeyLocator` (lines 146-158).  The source guard is
`keyLocator if type(keyLocator) == KeyLocator(keyLocator) else KeyLocator()`:
it compares the class of the argument with a freshly constructed *instance*.
A class never equals an instance, so the guard is always false and a
default-constructed `KeyLocator()` is stored on every call. -/
def setKeyLocator (interest : Interest) (keyLocator : KeyLocator) : Interest :=
  { interest with
      keyLocator := interest.keyLocator.set
        (if False then keyLocator else KeyLocator.empty)
      changeCount := interest.changeCount + 1 }

/-- Source `Interest.setExclude` (lines 160-171).  As in `setKeyLocator`, the guard
`type(exclude) == Exclude(exclude)` compares a class with an instance and is
always false, so a default-constructed `Exclude()` is stored on every call. -/
def setExclude (interest : Interest) (exclude : Exclude) : Interest :=
  { interest with
      exclude := interest.exclude.set
        (if False then exclude else Exclude.empty)
      changeCount := interest.changeCount + 1 }

/-- Source `Interest.setChildSelector` (lines 173-175). -/
def setChildSelector (interest : Interest) (v : Option Int) : Interest :=
  { interest with childSelector := v, changeCount := interest.changeCount + 1 }

/-- Source `Interest.setMustBeFresh` (lines 177-179): `True if mustBeFresh else False`. -/
def setMustBeFresh (interest : Interest) (mustBeFresh : Bool) : Interest :=
  { interest with mustBeFresh := if mustBeFresh then true else false
                  changeCount := interest.changeCount + 1 }

/-- Source `Interest.setNonce` (lines 181-186): store the nonce, increment
`_changeCount`, then set `_getNonceChangeCount` from a fresh `getChangeCount()`
call so that the next `getNonce()` will not clear the nonce. -/
def setNonce (interest : Interest) (nonce : List Nat) : Interest :=
  let withNonce := { interest with nonce := nonce, changeCount := interest.changeCount + 1 }
  let poll := withNonce.getChangeCount
  { poll.snd with getNonceChangeCount := poll.fst }

/-- Source `Interest.setScope` (lines 188-190). -/
def setScope (interest : Interest) (v : Option Int) : Interest :=
  { interest with scope := v, changeCount := interest.changeCount + 1 }

/-- Source `Interest.setInterestLifetimeMilliseconds` (lines 192-196): `None` stays
`None`, an integral value passes through `float()` unchanged. -/
def setInterestLifetimeMilliseconds (interest : Interest) (v : Option Int) : Interest :=
  { interest with interestLifetimeMilliseconds := v, changeCount := interest.changeCount + 1 }

/-- Source `Interest.toUri` (lines 232-270): build the `&`-prefixed selector segments
in source order (min suffix, max suffix, child selector, must-be-fresh, scope,
lifetime, nonce, exclude), read the nonce through `getNonce()` (twice, as the
source does: once for the size test and once for the value), then append
`"?" + selectors[1:]` to the name URI when any selector is present. -/
def toUri (interest : Interest) : String × Interest :=
  let s1 := interest.minSuffixComponents.elim ""
    (fun v => "&ndn.MinSuffixComponents=" ++ toString v)
  let s2 := interest.maxSuffixComponents.elim ""
    (fun v => "&ndn.MaxSuffixComponents=" ++ toString v)
  let s3 := interest.childSelector.elim ""
    (fun v => "&ndn.ChildSelector=" ++ toString v)
  let s4 := if interest.mustBeFresh then "&ndn.MustBeFresh=true" else ""
  let s5 := interest.scope.elim "" (fun v => "&ndn.Scope=" ++ toString v)
  let s6 := interest.interestLifetimeMilliseconds.elim ""
    (fun v => "&ndn.InterestLifetime=" ++ reprFloat v)
  let noncePoll := interest.getNonce
  let s7 := if noncePoll.fst.length > 0 then
      "&ndn.Nonce=" ++ Name.toEscapedString (noncePoll.snd.getNonce).fst
    else ""
  let state := if noncePoll.fst.length > 0 then (noncePoll.snd.getNonce).snd else noncePoll.snd
  let s8 := if state.getExclude.size > 0 then "&ndn.Exclude=" ++ state.getExclude.toUri else ""
  let selectors := s1 ++ s2 ++ s3 ++ s4 ++ s5 ++ s6 ++ s7 ++ s8
  let result := state.getName.toUri
  let result := if selectors ≠ "" then result ++ "?" ++ selectors.drop 1 else result
  (result, state)

/-- Whether at least one change-tracked wrapper currently holds a stale
snapshot, i.e. whether the next `getChangeCount` poll will detect a change. -/
def subObjectsChanged (interest : Interest) : Bool :=
  decide (interest.name.changeCount ≠ HasChangeCount.getChangeCount interest.name.target) ||
  decide (interest.keyLocator.changeCount ≠
    HasChangeCount.getChangeCount interest.keyLocator.target) ||
  decide (interest.exclude.changeCount ≠ HasChangeCount.getChangeCount interest.exclude.target)

/-- The selector segments of the URI query suffix, in the fixed serialization
order, without the `&` separators: the specification-side description of the
query suffix that `toUri` produces. -/
def selectorSegments (interest : Interest) : List String :=
  interest.minSuffixComponents.elim []
      (fun v => ["ndn.MinSuffixComponents=" ++ toString v]) ++
  interest.maxSuffixComponents.elim []
      (fun v => ["ndn.MaxSuffixComponents=" ++ toString v]) ++
  interest.childSelector.elim [] (fun v => ["ndn.ChildSelector=" ++ toString v]) ++
  (if interest.mustBeFresh then ["ndn.MustBeFresh=true"] else []) ++
  interest.scope.elim [] (fun v => ["ndn.Scope=" ++ toString v]) ++
  interest.interestLifetimeMilliseconds.elim []
      (fun v => ["ndn.InterestLifetime=" ++ reprFloat v]) ++
  (if (interest.getNonce).fst.length > 0 then
    ["ndn.Nonce=" ++ Name.toEscapedString (interest.getNonce).fst] else []) ++
  (if interest.exclude.target.size > 0 then
    ["ndn.Exclude=" ++ interest.exclude.target.toUri] else [])

end Interest

/-- One setter call on an Interest, with its argument (the spec's section-4.2
setter list together with `setNonce`). -/
inductive Setter where
  | sName (name : Name)
  | sMinSuffixComponents (v : Option Int)
  | sMaxSuffixComponents (v : Option Int)
  | sKeyLocator (keyLocator : KeyLocator)
  | sExclude (e : Exclude)
  | sChildSelector (v : Option Int)
  | sMustBeFresh (b : Bool)
  | sNonce (nonce : List Nat)
  | sScope (v : Option Int)
  | sInterestLifetimeMilliseconds (v : Option Int)
deriving Repr, DecidableEq

/-- Whether the setter is the `setNonce` call (treated separately from the
section-4.2 setters in the spec). -/
def Setter.setsNonce : Setter → Bool
  | .sNonce _ => true
  | _ => false

/-- The logical field each setter assigns, as a discriminant. -/
def Setter.fieldIndex : Setter → Nat
  | .sName _ => 0
  | .sMinSuffixComponents _ => 1
  | .sMaxSuffixComponents _ => 2
  | .sKeyLocator _ => 3
  | .sExclude _ => 4
  | .sChildSelector _ => 5
  | .sMustBeFresh _ => 6
  | .sNonce _ => 7
  | .sScope _ => 8
  | .sInterestLifetimeMilliseconds _ => 9

namespace Interest

/-- Dispatch one setter call to the corresponding Interest method. -/
def applySetter (interest : Interest) : Setter → Interest
  | .sName n => interest.setName n
  | .sMinSuffixComponents v => interest.setMinSuffixComponents v
  | .sMaxSuffixComponents v => interest.setMaxSuffixComponents v
  | .sKeyLocator k => interest.setKeyLocator k
  | .sExclude e => interest.setExclude e
  | .sChildSelector v => interest.setChildSelector v
  | .sMustBeFresh b => interest.setMustBeFresh b
  | .sNonce b => interest.setNonce b
  | .sScope v => interest.setScope v
  | .sInterestLifetimeMilliseconds v => interest.setInterestLifetimeMilliseconds v

/-- Apply a list of setter calls from left to right. -/
def applySetters (interest : Interest) (setters : List Setter) : Interest :=
  setters.foldl applySetter interest

end Interest

/-- One operation on an Interest: a setter call, one of the side-effecting
reads, or a direct in-place mutation of a sub-object obtained by reference
from `get()` (which replaces the wrapper's owned value without touching its
snapshot — exactly what the borrowed reference allows). -/
inductive Op where
  | opSet (s : Setter)
  | opGetChangeCount
  | opGetNonce
  | opToUri
  | opMutateName (name : Name)
  | opMutateKeyLocator (keyLocator : KeyLocator)
  | opMutateExclude (e : Exclude)
deriving Repr, DecidableEq

namespace Interest

/-- The state transition of one operation. -/
def applyOp (interest : Interest) : Op → Interest
  | .opSet s => interest.applySetter s
  | .opGetChangeCount => (interest.getChangeCount).snd
  | .opGetNonce => (interest.getNonce).snd
  | .opToUri => (interest.toUri).snd
  | .opMutateName n => { interest with name := { interest.name with target := n } }
  | .opMutateKeyLocator k =>
      { interest with keyLocator := { interest.keyLocator with target := k } }
  | .opMutateExclude e => { interest with exclude := { interest.exclude with target := e } }

/-- Run a sequence of operations from left to right. -/
def run (interest : Interest) (ops : List Op) : Interest :=
  ops.foldl applyOp interest

end Interest

/-! ### AES padding (pyndn/encrypt/algo/aes_algorithm.py) -/

namespace AesAlgorithm

/-- The pad length computed by `AesAlgorithm.encrypt` (line 118):
`padLength = 16 - (plainData.size() % 16)`. -/
def padLength (size : Nat) : Nat := 16 - size % 16

/-- The padding step of `AesAlgorithm.encrypt` (lines 117-122): append
`padLength` bytes, each equal to `padLength`, to the plaintext (the source
encrypts `plainData` and `pad` with one stateful cipher, which is the
encryption of this concatenation). -/
def pad (plainData : List Nat) : List Nat :=
  plainData ++ List.replicate (padLength plainData.length) (padLength plainData.length)

/-- The unpad step of `AesAlgorithm.decrypt` (lines 95-102): read the pad
length from the last byte and drop that many trailing bytes
(`resultWithPad[:-padLength]`; a Python slice `[:-0]` is empty, and the last
byte of an empty sequence raises, embedded as `none`). -/
def unpad (resultWithPad : List Nat) : Option (List Nat) :=
  match resultWithPad.getLast? with
  | none => none
  | some b =>
      if b = 0 then some []
      else some (resultWithPad.take (resultWithPad.length - b))

end AesAlgorithm

/-- Concatenation of query segments, each prefixed with `&`: the shape in
which `toUri` accumulates its selector string. -/
def ampConcat (segments : List String) : String :=
  String.join (segments.map (fun s => "&" ++ s))

/-! ### Characterizations of the state-passing methods -/

lemma ChangeCounter.checkChanged_eq [HasChangeCount T] (c : ChangeCounter T) :
    c.checkChanged =
      (decide (c.changeCount ≠ HasChangeCount.getChangeCount c.target), c.refresh) := by
  obtain ⟨t, sc⟩ := c
  unfold ChangeCounter.checkChanged ChangeCounter.refresh
  by_cases h : sc = HasChangeCount.getChangeCount t <;> simp_all

lemma ChangeCounter.refresh_eq_self [HasChangeCount T] {c : ChangeCounter T}
    (h : c.changeCount = HasChangeCount.getChangeCount c.target) : c.refresh = c := by
  obtain ⟨t, sc⟩ := c
  unfold ChangeCounter.refresh
  simp_all

lemma ampConcat_data (segments : List String) :
    (ampConcat segments).data = (segments.map (fun s => '&' :: s.data)).flatten := by
  unfold ampConcat
  rw [String.data_join, List.map_map]
  rfl

lemma ampConcat_nil : ampConcat [] = "" := rfl

lemma ampConcat_append (xs ys : List String) :
    ampConcat (xs ++ ys) = ampConcat xs ++ ampConcat ys := by
  apply String.ext
  rw [String.data_append, ampConcat_data, ampConcat_data, ampConcat_data, List.map_append,
    List.flatten_append]

lemma intercalate_go_eq (acc : String) (rest : List String) :
    String.intercalate.go acc "&" rest = acc ++ ampConcat rest := by
  induction rest generalizing acc with
  | nil =>
      simp only [String.intercalate.go]
      rw [ampConcat_nil, String.append_empty]
  | cons b bs ih =>
      simp only [String.intercalate.go]
      rw [ih]
      apply String.ext
      rw [String.data_append, String.data_append, String.data_append, String.data_append,
        ampConcat_data, ampConcat_data]
      simp [List.append_assoc]

lemma intercalate_eq_ampConcat (a : String) (as : List String) :
    String.intercalate "&" (a :: as) = a ++ ampConcat as := by
  simp only [String.intercalate]
  exact intercalate_go_eq a as

namespace Interest

lemma getChangeCount_eq (i : Interest) :
    i.getChangeCount =
      (if i.subObjectsChanged then i.changeCount + 1 else i.changeCount,
       { i with
           name := i.name.refresh
           keyLocator := i.keyLocator.refresh
           exclude := i.exclude.refresh
           changeCount := if i.subObjectsChanged then i.changeCount + 1 else i.changeCount }) := by
  unfold getChangeCount subObjectsChanged
  simp only [ChangeCounter.checkChanged_eq]

lemma getChangeCount_snd_subObjectsChanged (i : Interest) :
    (i.getChangeCount).snd.subObjectsChanged = false := by
  simp [getChangeCount_eq, subObjectsChanged, ChangeCounter.refresh]

lemma getChangeCount_not_changed {i : Interest} (h : i.subObjectsChanged = false) :
    i.getChangeCount = (i.changeCount, i) := by
  have h' := h
  simp only [subObjectsChanged, Bool.or_eq_false_iff, decide_eq_false_iff_not,
    Decidable.not_not] at h'
  rw [getChangeCount_eq, h, ChangeCounter.refresh_eq_self h'.1.1,
    ChangeCounter.refresh_eq_self h'.1.2, ChangeCounter.refresh_eq_self h'.2]
  simp

lemma getChangeCount_fst_eq_snd_changeCount (i : Interest) :
    (i.getChangeCount).fst = (i.getChangeCount).snd.changeCount := by
  simp [getChangeCount_eq]

lemma changeCount_le_getChangeCount_fst (i : Interest) :
    i.changeCount ≤ (i.getChangeCount).fst := by
  rw [getChangeCount_eq]
  split <;> omega

lemma getChangeCount_fst_le (i : Interest) :
    (i.getChangeCount).fst ≤ i.changeCount + 1 := by
  rw [getChangeCount_eq]
  split <;> omega

lemma getChangeCount_snd_nonce (i : Interest) :
    (i.getChangeCount).snd.nonce = i.nonce := by
  simp [getChangeCount_eq]

lemma getNonce_eq (i : Interest) :
    i.getNonce =
      if i.getNonceChangeCount = (i.getChangeCount).fst then
        (i.nonce, (i.getChangeCount).snd)
      else
        ([], { (i.getChangeCount).snd with
                 nonce := []
                 getNonceChangeCount := (i.getChangeCount).fst }) := by
  by_cases h : i.getNonceChangeCount = (i.getChangeCount).fst
  · simp only [getNonce, ne_eq, h, not_true_eq_false, if_false, if_pos h,
      getChangeCount_snd_nonce]
    simp
  · simp only [getNonce, ne_eq, h, not_false_eq_true, if_true, if_neg h]
    have hcleared :
        ({ (i.getChangeCount).snd with nonce := ([] : List Nat) } : Interest).subObjectsChanged
          = false := by
      have hsub := getChangeCount_snd_subObjectsChanged i
      simp only [subObjectsChanged] at hsub ⊢
      exact hsub
    rw [getChangeCount_not_changed hcleared]
    have hcc : ({ (i.getChangeCount).snd with nonce := ([] : List Nat) } : Interest).changeCount
        = (i.getChangeCount).fst := (getChangeCount_fst_eq_snd_changeCount i).symm
    rw [hcc]
    simp

lemma getNonce_snd_subObjectsChanged (i : Interest) :
    (i.getNonce).snd.subObjectsChanged = false := by
  rw [getNonce_eq]
  split
  · exact getChangeCount_snd_subObjectsChanged i
  · have := getChangeCount_snd_subObjectsChanged i
    simpa [subObjectsChanged] using this

lemma getNonce_snd_nonce (i : Interest) : (i.getNonce).snd.nonce = (i.getNonce).fst := by
  rw [getNonce_eq]
  split <;> simp [getChangeCount_eq]

lemma getChangeCount_snd_getNonceChangeCount (i : Interest) :
    (i.getChangeCount).snd.getNonceChangeCount = i.getNonceChangeCount := by
  simp [getChangeCount_eq]

lemma getNonce_snd_getNonceChangeCount (i : Interest) :
    (i.getNonce).snd.getNonceChangeCount = (i.getNonce).snd.changeCount := by
  rw [getNonce_eq]
  split
  · rw [getChangeCount_snd_getNonceChangeCount, ← getChangeCount_fst_eq_snd_changeCount]
    assumption
  · simp [← getChangeCount_fst_eq_snd_changeCount]

lemma getNonce_idem (i : Interest) :
    (i.getNonce).snd.getNonce = ((i.getNonce).fst, (i.getNonce).snd) := by
  rw [getNonce_eq ((i.getNonce).snd),
    getChangeCount_not_changed (getNonce_snd_subObjectsChanged i)]
  simp [getNonce_snd_getNonceChangeCount, getNonce_snd_nonce]

lemma getNonce_snd_changeCount (i : Interest) :
    (i.getNonce).snd.changeCount = (i.getChangeCount).fst := by
  rw [getNonce_eq]
  split <;> simp [getChangeCount_fst_eq_snd_changeCount]

lemma getNonce_snd_name (i : Interest) :
    (i.getNonce).snd.name = i.name.refresh := by
  rw [getNonce_eq]
  split <;> simp [getChangeCount_eq]

lemma getNonce_snd_keyLocator (i : Interest) :
    (i.getNonce).snd.keyLocator = i.keyLocator.refresh := by
  rw [getNonce_eq]
  split <;> simp [getChangeCount_eq]

lemma getNonce_snd_exclude (i : Interest) :
    (i.getNonce).snd.exclude = i.exclude.refresh := by
  rw [getNonce_eq]
  split <;> simp [getChangeCount_eq]

lemma getNonce_snd_scalars (i : Interest) :
    (i.getNonce).snd.minSuffixComponents = i.minSuffixComponents ∧
    (i.getNonce).snd.maxSuffixComponents = i.maxSuffixComponents ∧
    (i.getNonce).snd.childSelector = i.childSelector ∧
    (i.getNonce).snd.mustBeFresh = i.mustBeFresh ∧
    (i.getNonce).snd.scope = i.scope ∧
    (i.getNonce).snd.interestLifetimeMilliseconds = i.interestLifetimeMilliseconds := by
  rw [getNonce_eq]
  split <;> simp [getChangeCount_eq]

lemma toUri_snd (i : Interest) : (i.toUri).snd = (i.getNonce).snd := by
  unfold toUri
  simp only [getNonce_idem]
  split <;> rfl

lemma toUri_fst_amp (i : Interest) :
    (i.toUri).fst =
      if ampConcat (selectorSegments i) ≠ "" then
        i.name.target.toUri ++ "?" ++ (ampConcat (selectorSegments i)).drop 1
      else
        i.name.target.toUri := by
  have hn : (i.getNonce).snd.getName = i.name.target := by
    rw [getName, ChangeCounter.get, getNonce_snd_name]; rfl
  have hx : (i.getNonce).snd.getExclude = i.exclude.target := by
    rw [getExclude, ChangeCounter.get, getNonce_snd_exclude]; rfl
  have h1 : ∀ o : Option Int,
      (Option.elim o "" fun v => "&ndn.MinSuffixComponents=" ++ toString v) =
        ampConcat (Option.elim o [] fun v => ["ndn.MinSuffixComponents=" ++ toString v]) := by
    rintro (_ | v) <;> rfl
  have h2 : ∀ o : Option Int,
      (Option.elim o "" fun v => "&ndn.MaxSuffixComponents=" ++ toString v) =
        ampConcat (Option.elim o [] fun v => ["ndn.MaxSuffixComponents=" ++ toString v]) := by
    rintro (_ | v) <;> rfl
  have h3 : ∀ o : Option Int,
      (Option.elim o "" fun v => "&ndn.ChildSelector=" ++ toString v) =
        ampConcat (Option.elim o [] fun v => ["ndn.ChildSelector=" ++ toString v]) := by
    rintro (_ | v) <;> rfl
  have h4 : (if i.mustBeFresh then "&ndn.MustBeFresh=true" else "") =
      ampConcat (if i.mustBeFresh then ["ndn.MustBeFresh=true"] else []) := by
    cases i.mustBeFresh <;> rfl
  have h5 : ∀ o : Option Int,
      (Option.elim o "" fun v => "&ndn.Scope=" ++ toString v) =
        ampConcat (Option.elim o [] fun v => ["ndn.Scope=" ++ toString v]) := by
    rintro (_ | v) <;> rfl
  have h6 : ∀ o : Option Int,
      (Option.elim o "" fun v => "&ndn.InterestLifetime=" ++ reprFloat v) =
        ampConcat (Option.elim o [] fun v => ["ndn.InterestLifetime=" ++ reprFloat v]) := by
    rintro (_ | v) <;> rfl
  have h7 : (if (i.getNonce).fst.length > 0 then
        "&ndn.Nonce=" ++ Name.toEscapedString (i.getNonce).fst else "") =
      ampConcat (if (i.getNonce).fst.length > 0 then
        ["ndn.Nonce=" ++ Name.toEscapedString (i.getNonce).fst] else []) := by
    split <;> rfl
  have h8 : (if i.exclude.target.size > 0 then
        "&ndn.Exclude=" ++ i.exclude.target.toUri else "") =
      ampConcat (if i.exclude.target.size > 0 then
        ["ndn.Exclude=" ++ i.exclude.target.toUri] else []) := by
    split <;> rfl
  simp only [toUri, getNonce_idem, ite_self, hn, hx]
  rw [h1 i.minSuffixComponents, h2 i.maxSuffixComponents, h3 i.childSelector, h4, h5 i.scope,
    h6 i.interestLifetimeMilliseconds, h7, h8,
    ← ampConcat_append, ← ampConcat_append, ← ampConcat_append, ← ampConcat_append,
    ← ampConcat_append, ← ampConcat_append, ← ampConcat_append]
  rfl

lemma toUri_fst_eq (i : Interest) :
    (i.toUri).fst =
      i.name.target.uri ++
        (if selectorSegments i = [] then ""
         else "?" ++ String.intercalate "&" (selectorSegments i)) := by
  rw [toUri_fst_amp]
  cases hseg : selectorSegments i with
  | nil =>
      simp [ampConcat_nil, Name.toUri]
  | cons a as =>
      have hne : ampConcat (a :: as) ≠ "" := by
        intro h
        have hd := congrArg String.data h
        rw [ampConcat_data] at hd
        simp at hd
      rw [if_pos hne, intercalate_eq_ampConcat]
      apply String.ext
      simp [String.data_append, String.data_drop, ampConcat_data, Name.toUri]

lemma setNonce_nonce (i : Interest) (b : List Nat) : (i.setNonce b).nonce = b := by
  unfold setNonce
  simp [getChangeCount_snd_nonce]

lemma setNonce_subObjectsChanged (i : Interest) (b : List Nat) :
    (i.setNonce b).subObjectsChanged = false := by
  unfold setNonce
  have h := getChangeCount_snd_subObjectsChanged
    { i with nonce := b, changeCount := i.changeCount + 1 }
  simp only [subObjectsChanged] at h ⊢
  simpa using h

lemma setNonce_getNonceChangeCount (i : Interest) (b : List Nat) :
    (i.setNonce b).getNonceChangeCount = (i.setNonce b).changeCount := by
  unfold setNonce
  simp [getChangeCount_fst_eq_snd_changeCount]

lemma setNonce_changeCount_lt (i : Interest) (b : List Nat) :
    i.changeCount < (i.setNonce b).changeCount := by
  unfold setNonce
  have h := changeCount_le_getChangeCount_fst
    { i with nonce := b, changeCount := i.changeCount + 1 }
  rw [getChangeCount_fst_eq_snd_changeCount] at h
  simp only at h
  simpa using h

lemma lt_applySetter_changeCount (i : Interest) (s : Setter) :
    i.changeCount < (i.applySetter s).changeCount := by
  cases s with
  | sNonce b => exact setNonce_changeCount_lt i b
  | sName n => simp [applySetter, setName]
  | sMinSuffixComponents v => simp [applySetter, setMinSuffixComponents]
  | sMaxSuffixComponents v => simp [applySetter, setMaxSuffixComponents]
  | sKeyLocator k => simp [applySetter, setKeyLocator]
  | sExclude e => simp [applySetter, setExclude]
  | sChildSelector v => simp [applySetter, setChildSelector]
  | sMustBeFresh b => simp [applySetter, setMustBeFresh]
  | sScope v => simp [applySetter, setScope]
  | sInterestLifetimeMilliseconds v => simp [applySetter, setInterestLifetimeMilliseconds]

lemma changeCount_le_applyOp (i : Interest) (op : Op) :
    i.changeCount ≤ (i.applyOp op).changeCount := by
  cases op with
  | opSet s => exact le_of_lt (lt_applySetter_changeCount i s)
  | opGetChangeCount =>
      show i.changeCount ≤ (i.getChangeCount).snd.changeCount
      rw [← getChangeCount_fst_eq_snd_changeCount]
      exact changeCount_le_getChangeCount_fst i
  | opGetNonce =>
      show i.changeCount ≤ (i.getNonce).snd.changeCount
      rw [getNonce_snd_changeCount]
      exact changeCount_le_getChangeCount_fst i
  | opToUri =>
      show i.changeCount ≤ (i.toUri).snd.changeCount
      rw [toUri_snd, getNonce_snd_changeCount]
      exact changeCount_le_getChangeCount_fst i
  | opMutateName n => simp [applyOp]
  | opMutateKeyLocator k => simp [applyOp]
  | opMutateExclude e => simp [applyOp]

lemma changeCount_le_run (i : Interest) (ops : List Op) :
    i.changeCount ≤ (i.run ops).changeCount := by
  induction ops generalizing i with
  | nil => simp [run]
  | cons op ops ih =>
      calc i.changeCount ≤ (i.applyOp op).changeCount := changeCount_le_applyOp i op
        _ ≤ ((i.applyOp op).run ops).changeCount := ih (i.applyOp op)
        _ = (i.run (op :: ops)).changeCount := by simp [run]

lemma applySetter_getNonceChangeCount (i : Interest) (s : Setter)
    (hs : s.setsNonce = false) :
    (i.applySetter s).getNonceChangeCount = i.getNonceChangeCount ∧
    (i.applySetter s).changeCount = i.changeCount + 1 := by
  cases s <;>
    simp_all [applySetter, Setter.setsNonce, setName, setMinSuffixComponents,
      setMaxSuffixComponents, setKeyLocator, setExclude, setChildSelector,
      setMustBeFresh, setScope, setInterestLifetimeMilliseconds]

/-! ### Claim theorems -/

/-- C2: on every call, `getChangeCount` polls `checkChanged` on all three
change-tracked wrappers — in the resulting state every wrapper's snapshot is
refreshed to its target's current counter, even when an earlier wrapper
already reported a change — increments `changeCount` by exactly 1 when at
least one wrapper's snapshot was stale and not at all otherwise, and returns
the resulting `changeCount`. -/
theorem getChangeCount_polls_all_and_increments_once (i : Interest) :
    (i.getChangeCount).snd.name = i.name.refresh ∧
    (i.getChangeCount).snd.keyLocator = i.keyLocator.refresh ∧
    (i.getChangeCount).snd.exclude = i.exclude.refresh ∧
    ((i.getChangeCount).fst =
      if i.subObjectsChanged then i.changeCount + 1 else i.changeCount) ∧
    (i.getChangeCount).snd.changeCount = (i.getChangeCount).fst := by
  refine ⟨?_, ?_, ?_, ?_, ?_⟩ <;> simp [getChangeCount_eq]

/-- C6: calling `getChangeCount` twice in a row with no intervening mutation
returns the same value both times; indeed the second call leaves the state
unchanged. -/
theorem getChangeCount_idempotent (i : Interest) :
    ((i.getChangeCount).snd.getChangeCount).fst = (i.getChangeCount).fst ∧
    ((i.getChangeCount).snd.getChangeCount).snd = (i.getChangeCount).snd := by
  rw [getChangeCount_not_changed (getChangeCount_snd_subObjectsChanged i)]
  exact ⟨(getChangeCount_fst_eq_snd_changeCount i).symm, rfl⟩

/-- C5: across every sequence of operations the stored change count is
non-decreasing; every setter call strictly increases it; the value returned
by `getChangeCount` is at least the stored count; and whenever the poll
detects a stale sub-object snapshot the count is incremented (by 1). -/
theorem changeCount_monotone (i : Interest) (ops : List Op) (s : Setter) :
    i.changeCount ≤ (i.run ops).changeCount ∧
    i.changeCount < (i.applySetter s).changeCount ∧
    i.changeCount ≤ (i.getChangeCount).fst ∧
    (i.subObjectsChanged = true → (i.getChangeCount).fst = i.changeCount + 1) := by
  refine ⟨changeCount_le_run i ops, lt_applySetter_changeCount i s,
    changeCount_le_getChangeCount_fst i, fun h => ?_⟩
  rw [getChangeCount_eq, h]
  simp

/-- Witness for C5: a state with a directly mutated name sub-object, where
the poll detects the change and increments the count from 0 to 1. -/
theorem changeCount_monotone_witness :
    ((Interest.empty.applyOp (Op.opMutateName { uri := "/x", changeCount := 1 })).run []).changeCount
        = 0 ∧
    ((Interest.empty.applyOp
        (Op.opMutateName { uri := "/x", changeCount := 1 })).getChangeCount).fst = 0 + 1 :=
  ⟨by decide,
   (changeCount_monotone (Interest.empty.applyOp (Op.opMutateName { uri := "/x", changeCount := 1 }))
      [] (Setter.sScope none)).2.2.2 (by decide)⟩

/-- C1: immediately after `setNonce b` the nonce reads back as `b` (the call
itself does not clear it); after `setNonce b` followed by any of the
section-4.2 setter calls (every `Setter` other than `setNonce`) the nonce
reads back as the empty buffer; and in general `getNonce` returns the stored
nonce unchanged iff the stored snapshot equals the recomputed change count,
otherwise it returns empty, and it always leaves the snapshot equal to the
recomputed change count. -/
theorem nonce_invalidation (i : Interest) (b : List Nat) (s : Setter)
    (hs : s.setsNonce = false) :
    ((i.setNonce b).getNonce).fst = b ∧
    (((i.setNonce b).applySetter s).getNonce).fst = [] ∧
    ((i.getNonce).fst =
      if i.getNonceChangeCount = (i.getChangeCount).fst then i.nonce else []) ∧
    (i.getNonce).snd.getNonceChangeCount = (i.getChangeCount).fst := by
  refine ⟨?_, ?_, ?_, ?_⟩
  · rw [getNonce_eq, getChangeCount_not_changed (setNonce_subObjectsChanged i b),
      if_pos (setNonce_getNonceChangeCount i b)]
    exact setNonce_nonce i b
  · obtain ⟨hg, hc⟩ := applySetter_getNonceChangeCount (i.setNonce b) s hs
    have hsn := setNonce_getNonceChangeCount i b
    have hge := changeCount_le_getChangeCount_fst ((i.setNonce b).applySetter s)
    rw [getNonce_eq, if_neg (by omega)]
  · rw [getNonce_eq]
    split <;> rfl
  · rw [getNonce_snd_getNonceChangeCount, getNonce_snd_changeCount]

/-- Witness for C1 at a concrete interest, nonce and setter. -/
theorem nonce_invalidation_witness :
    ((Interest.empty.setNonce [1]).getNonce).fst = [1] ∧
    (((Interest.empty.setNonce [1]).applySetter (Setter.sMustBeFresh true)).getNonce).fst = [] :=
  ⟨(nonce_invalidation Interest.empty [1] (Setter.sMustBeFresh true) (by decide)).1,
   (nonce_invalidation Interest.empty [1] (Setter.sMustBeFresh true) (by decide)).2.1⟩

/-- C8: when the name sub-object obtained by reference is mutated directly
(its counter increases) without `setName`, the next `getChangeCount` or
`getNonce` call detects it exactly once: that call yields `changeCount + 1`,
and a further `getChangeCount` with no further mutation yields the same value
without incrementing again. -/
theorem subobject_mutation_detected_once (i : Interest) (n : Name)
    (hsync : i.subObjectsChanged = false)
    (hinc : i.name.target.changeCount < n.changeCount) :
    ((i.applyOp (Op.opMutateName n)).getChangeCount).fst = i.changeCount + 1 ∧
    (((i.applyOp (Op.opMutateName n)).getChangeCount).snd.getChangeCount).fst
        = i.changeCount + 1 ∧
    ((i.applyOp (Op.opMutateName n)).getNonce).snd.changeCount = i.changeCount + 1 ∧
    (((i.applyOp (Op.opMutateName n)).getNonce).snd.getChangeCount).fst
        = i.changeCount + 1 := by
  have hchanged : (i.applyOp (Op.opMutateName n)).subObjectsChanged = true := by
    simp only [subObjectsChanged, Bool.or_eq_false_iff, decide_eq_false_iff_not,
      Decidable.not_not] at hsync
    simp only [applyOp, subObjectsChanged]
    have : i.name.changeCount ≠ HasChangeCount.getChangeCount n := by
      have := hsync.1.1
      simp only [HasChangeCount.getChangeCount] at this ⊢
      omega
    simp [this]
  have h1 : ((i.applyOp (Op.opMutateName n)).getChangeCount).fst = i.changeCount + 1 := by
    rw [getChangeCount_eq, hchanged]
    cases op : (Op.opMutateName n) <;> simp_all [applyOp]
  refine ⟨h1, ?_, ?_, ?_⟩
  · rw [(getChangeCount_idempotent (i.applyOp (Op.opMutateName n))).1, h1]
  · rw [getNonce_snd_changeCount, h1]
  · rw [getChangeCount_not_changed
      (getNonce_snd_subObjectsChanged (i.applyOp (Op.opMutateName n))),
      getNonce_snd_changeCount, h1]

/-- Witness for C8: the empty interest with its (synced) name replaced through
the borrowed reference by a name with counter 1. -/
theorem subobject_mutation_detected_once_witness :
    ((Interest.empty.applyOp (Op.opMutateName { uri := "/x", changeCount := 1 })).getChangeCount).fst
      = Interest.empty.changeCount + 1 :=
  (subobject_mutation_detected_once Interest.empty { uri := "/x", changeCount := 1 }
    (by decide) (by decide)).1

/-- C7: `toUri` returns the name's URI followed by an optional query suffix
whose segments appear in the fixed order (min suffix components, max suffix
components, child selector, must-be-fresh only if true, scope, lifetime,
nonce only if non-empty and percent-escaped, exclude only if non-empty), each
present only if set/non-default, joined with `&` and with the first `&`
replaced by `?`; a packet with only name `/a/b` set yields `"/a/b"` with no
`?`, and the same packet with mustBeFresh additionally set to true yields
`"/a/b?ndn.MustBeFresh=true"`. -/
theorem toUri_format (i : Interest) :
    ((i.toUri).fst =
      i.name.target.uri ++
        (if selectorSegments i = [] then ""
         else "?" ++ String.intercalate "&" (selectorSegments i))) ∧
    ((Interest.empty.setName { uri := "/a/b", changeCount := 1 }).toUri).fst = "/a/b" ∧
    (((Interest.empty.setName { uri := "/a/b", changeCount := 1 }).setMustBeFresh true).toUri).fst
      = "/a/b?ndn.MustBeFresh=true" :=
  ⟨toUri_fst_eq i, by decide, by decide⟩

lemma applySetter_comm (z : Interest) (x y : Setter)
    (hx : x.setsNonce = false) (hy : y.setsNonce = false)
    (hxy : x.fieldIndex ≠ y.fieldIndex) :
    (z.applySetter x).applySetter y = (z.applySetter y).applySetter x := by
  cases x <;> cases y <;> first
    | rfl
    | simp_all [Setter.setsNonce, Setter.fieldIndex]

/-- C4 counterexample: the same two setter calls applied in the two orders
produce different URIs, because a `setMustBeFresh` after `setNonce`
invalidates the nonce while the reverse order leaves it valid at
serialization time. -/
theorem toUri_reorder_counterexample :
    ([Setter.sNonce [1], Setter.sMustBeFresh true] : List Setter).Perm
        [Setter.sMustBeFresh true, Setter.sNonce [1]] ∧
    ((Interest.empty.applySetters [Setter.sNonce [1], Setter.sMustBeFresh true]).toUri).fst ≠
      ((Interest.empty.applySetters [Setter.sMustBeFresh true, Setter.sNonce [1]]).toUri).fst :=
  ⟨List.Perm.swap (Setter.sMustBeFresh true) (Setter.sNonce [1]) [], by decide⟩

/-- C4 (amended): two packets built by applying the same setter calls in
different orders produce identical `toUri` output, provided none of the calls
is `setNonce` and no two distinct calls assign the same logical field; the
resulting packet states are then equal, so the URIs are byte-identical.
(Reordering `setNonce` relative to other setters changes whether the nonce is
still valid at serialization time, so it is excluded; see the
counterexample.) -/
theorem toUri_order_independent (i : Interest) (ss ts : List Setter)
    (hperm : ss.Perm ts)
    (hnonce : ∀ s ∈ ss, s.setsNonce = false)
    (hfields : ∀ s ∈ ss, ∀ t ∈ ss, s.fieldIndex = t.fieldIndex → s = t) :
    ((i.applySetters ss).toUri).fst = ((i.applySetters ts).toUri).fst := by
  have hstate : i.applySetters ss = i.applySetters ts := by
    unfold applySetters
    refine hperm.foldl_eq' (fun x hx y hy z => ?_) i
    by_cases hxy : x = y
    · rw [hxy]
    · exact applySetter_comm z x y (hnonce x hx) (hnonce y hy)
        (fun hf => hxy (hfields x hx y hy hf))
  rw [hstate]

/-- Witness for C4 (amended) at two concrete setter lists related by a swap. -/
theorem toUri_order_independent_witness :
    ((Interest.empty.applySetters [Setter.sMustBeFresh true, Setter.sScope (some 1)]).toUri).fst =
      ((Interest.empty.applySetters [Setter.sScope (some 1), Setter.sMustBeFresh true]).toUri).fst :=
  toUri_order_independent Interest.empty
    [Setter.sMustBeFresh true, Setter.sScope (some 1)]
    [Setter.sScope (some 1), Setter.sMustBeFresh true]
    (List.Perm.swap (Setter.sScope (some 1)) (Setter.sMustBeFresh true) [])
    (by decide) (by decide)

lemma fourth_char_append (p u : String) (h : 4 < p.data.length) :
    (p ++ u).data[4]? = p.data[4]? := by
  rw [String.data_append, List.getElem?_append_left h]

lemma ne_nonce_segment (p t : String) (hp : p.data[4]? ≠ some 'N') :
    "ndn.Nonce=" ++ t ≠ p := by
  intro h
  have h4 : ("ndn.Nonce=" ++ t).data[4]? = some 'N' := by
    rw [fourth_char_append _ _ (by decide)]
    rfl
  rw [h] at h4
  exact hp h4

lemma ne_nonce_segment_app (lit u t : String) (hlen : 4 < lit.data.length)
    (hch : lit.data[4]? ≠ some 'N') : "ndn.Nonce=" ++ t ≠ lit ++ u := by
  apply ne_nonce_segment
  rw [fourth_char_append _ _ hlen]
  exact hch

lemma not_mem_elim_nonce {o : Option Int} {f : Int → String} {t : String}
    (h : ∀ v, "ndn.Nonce=" ++ t ≠ f v) :
    ("ndn.Nonce=" ++ t) ∉ Option.elim o [] (fun v => [f v]) := by
  cases o with
  | none => simp
  | some v =>
      intro hm
      simp only [Option.elim, List.mem_singleton] at hm
      exact h v hm

lemma not_mem_ite_nonce {c : Prop} [Decidable c] {s t : String}
    (h : "ndn.Nonce=" ++ t ≠ s) : ("ndn.Nonce=" ++ t) ∉ (if c then [s] else []) := by
  split
  · intro hm
    simp only [List.mem_singleton] at hm
    exact h hm
  · simp

/-- C9: `toUri`'s entire state effect is exactly that of its `getNonce` read:
the sub-object targets and every scalar field other than the nonce are
unchanged, the stored nonce becomes the value `getNonce` returned (so an
invalidated nonce is cleared as a side effect), the nonce snapshot ends equal
to the current change count, and the `ndn.Nonce` query segment is present iff
the nonce was still valid (non-empty) at serialization time. -/
theorem toUri_frame_effects (i : Interest) :
    (i.toUri).snd = (i.getNonce).snd ∧
    (i.toUri).snd.name.target = i.name.target ∧
    (i.toUri).snd.keyLocator.target = i.keyLocator.target ∧
    (i.toUri).snd.exclude.target = i.exclude.target ∧
    (i.toUri).snd.minSuffixComponents = i.minSuffixComponents ∧
    (i.toUri).snd.maxSuffixComponents = i.maxSuffixComponents ∧
    (i.toUri).snd.childSelector = i.childSelector ∧
    (i.toUri).snd.mustBeFresh = i.mustBeFresh ∧
    (i.toUri).snd.scope = i.scope ∧
    (i.toUri).snd.interestLifetimeMilliseconds = i.interestLifetimeMilliseconds ∧
    (i.toUri).snd.nonce = (i.getNonce).fst ∧
    (i.toUri).snd.getNonceChangeCount = (i.toUri).snd.changeCount ∧
    ((∃ t, ("ndn.Nonce=" ++ t) ∈ selectorSegments i) ↔ (i.getNonce).fst ≠ []) := by
  obtain ⟨m1, m2, m3, m4, m5, m6⟩ := getNonce_snd_scalars i
  refine ⟨toUri_snd i, ?_, ?_, ?_, ?_, ?_, ?_, ?_, ?_, ?_, ?_, ?_, ?_⟩
  · rw [toUri_snd, getNonce_snd_name]; rfl
  · rw [toUri_snd, getNonce_snd_keyLocator]; rfl
  · rw [toUri_snd, getNonce_snd_exclude]; rfl
  · rw [toUri_snd]; exact m1
  · rw [toUri_snd]; exact m2
  · rw [toUri_snd]; exact m3
  · rw [toUri_snd]; exact m4
  · rw [toUri_snd]; exact m5
  · rw [toUri_snd]; exact m6
  · rw [toUri_snd]; exact getNonce_snd_nonce i
  · rw [toUri_snd]; exact getNonce_snd_getNonceChangeCount i
  · constructor
    · rintro ⟨t, ht⟩ heq
      rw [selectorSegments, heq] at ht
      simp only [List.length_nil, gt_iff_lt, lt_self_iff_false, if_false,
        List.append_nil, List.mem_append] at ht
      rcases ht with ((((((hm | hm) | hm) | hm) | hm) | hm) | hm)
      · exact not_mem_elim_nonce
          (fun v => ne_nonce_segment_app _ _ _ (by decide) (by decide)) hm
      · exact not_mem_elim_nonce
          (fun v => ne_nonce_segment_app _ _ _ (by decide) (by decide)) hm
      · exact not_mem_elim_nonce
          (fun v => ne_nonce_segment_app _ _ _ (by decide) (by decide)) hm
      · exact not_mem_ite_nonce (ne_nonce_segment _ _ (by decide)) hm
      · exact not_mem_elim_nonce
          (fun v => ne_nonce_segment_app _ _ _ (by decide) (by decide)) hm
      · exact not_mem_elim_nonce
          (fun v => ne_nonce_segment_app _ _ _ (by decide) (by decide)) hm
      · exact not_mem_ite_nonce (ne_nonce_segment_app _ _ _ (by decide) (by decide)) hm
    · intro hne
      have hlen : 0 < (i.getNonce).fst.length := List.length_pos.mpr hne
      refine ⟨Name.toEscapedString (i.getNonce).fst, ?_⟩
      rw [selectorSegments]
      simp only [List.mem_append]
      exact Or.inl (Or.inr (by simp [hlen]))

/-- C3 (observed code defect): `setKeyLocator` stores a default-constructed
empty `KeyLocator` even when its argument already has type `KeyLocator`,
because the source guard compares the argument's class against a freshly
constructed instance (always false); `setExclude` behaves the same way; both
still increment `changeCount` by 1.  This theorem evaluates the embedded code
at such a failing input. -/
theorem setKeyLocator_stores_default :
    (Interest.empty.setKeyLocator { keyType := some 1, changeCount := 0 }).getKeyLocator
        = KeyLocator.empty ∧
    ({ keyType := some 1, changeCount := 0 } : KeyLocator) ≠ KeyLocator.empty ∧
    (Interest.empty.setExclude { size := 1, uri := "/x", changeCount := 0 }).getExclude
        = Exclude.empty ∧
    ({ size := 1, uri := "/x", changeCount := 0 } : Exclude) ≠ Exclude.empty ∧
    (Interest.empty.setKeyLocator { keyType := some 1, changeCount := 0 }).changeCount
        = Interest.empty.changeCount + 1 ∧
    (Interest.empty.setExclude { size := 1, uri := "/x", changeCount := 0 }).changeCount
        = Interest.empty.changeCount + 1 := by
  refine ⟨rfl, by decide, rfl, by decide, rfl, rfl⟩

end Interest

namespace AesAlgorithm

/-- C10: for every plaintext, the pad appended by `AesAlgorithm.encrypt` has
length `16 - (size mod 16)`, between 1 and 16; every pad byte equals the pad
length; the padded length is a positive multiple of 16; and the unpad rule of
`AesAlgorithm.decrypt` (drop as many trailing bytes as the last byte says)
recovers the plaintext exactly. -/
theorem pad_unpad_roundtrip (plainData : List Nat) :
    1 ≤ padLength plainData.length ∧
    padLength plainData.length ≤ 16 ∧
    (∀ b ∈ (pad plainData).drop plainData.length, b = padLength plainData.length) ∧
    (pad plainData).length % 16 = 0 ∧
    0 < (pad plainData).length ∧
    unpad (pad plainData) = some plainData := by
  have hlt : plainData.length % 16 < 16 := Nat.mod_lt _ (by omega)
  have h1 : 1 ≤ padLength plainData.length := by unfold padLength; omega
  have h16 : padLength plainData.length ≤ 16 := by unfold padLength; omega
  have hlen : (pad plainData).length = plainData.length + padLength plainData.length := by
    simp [pad]
  refine ⟨h1, h16, ?_, ?_, ?_, ?_⟩
  · intro b hb
    rw [pad, List.drop_left] at hb
    exact (List.eq_of_mem_replicate hb)
  · rw [hlen]
    unfold padLength
    omega
  · rw [hlen]; omega
  · have hlast : (pad plainData).getLast? = some (padLength plainData.length) := by
      rw [pad, List.getLast?_append, List.getLast?_replicate, if_neg (by omega)]
      rfl
    rw [unpad, hlast]
    dsimp only
    rw [if_neg (by omega), hlen, Nat.add_sub_cancel, pad, List.take_left]

end AesAlgorithm

end PyNDN
